import Mathlib

/-
  Verification of the laba_zis voice-chat backend against its
  natural-language specification.

  The definitions below are shallow embeddings of the Go sources:
  - internal/voice/handler.go        (HandleUploadVoiceMessage, HandleGetRoomMessages)
  - unnamed/part_002                 (MinIOVoiceStore.UploadVoiceMessage: blob key)
  - internal/voice/postgres.go       (PostgresStore.CreateVoiceMessage)
  - pkg/audio/format.go              (DetectAudioFormat)
  - internal/voice/minio.go          (getContentType)
  - unnamed/part_015                 (websocket Hub: handleRegister,
                                      handleUnregister, handleBroadcast, Send)
  - internal/websocket/hub.go        (Hub.BroadcastToRoom)
-/

namespace LabaZis

/-! ### Small string helpers mirroring the Go standard library -/

/-- Decimal value of a digit list, as strconv does before range checks:
    every character must be a digit and the list must be nonempty. -/
def digitsVal : List Char → Option Nat
  | [] => none
  | l =>
    if l.all Char.isDigit then
      some (l.foldl (fun acc c => acc * 10 + (c.toNat - 48)) 0)
    else none

/-- Embedding of Go strconv.Atoi: optional sign, decimal digits,
    error when empty, malformed, or out of the signed 64-bit range. -/
def goAtoi (s : String) : Option Int :=
  let fit : Int → Option Int := fun v =>
    if -(2 ^ 63) ≤ v ∧ v ≤ 2 ^ 63 - 1 then some v else none
  match s.toList with
  | [] => none
  | c :: rest =>
    if c = '+' then (digitsVal rest).bind (fun n => fit (Int.ofNat n))
    else if c = '-' then (digitsVal rest).bind (fun n => fit (-(Int.ofNat n)))
    else (digitsVal (c :: rest)).bind (fun n => fit (Int.ofNat n))

/-- Rendering of fmt's %02d verb for nonnegative values. -/
def pad2 (n : Nat) : String :=
  if n < 10 then "0" ++ toString n else toString n

/-- True when sub occurs inside l (Go strings.Contains on char lists). -/
def hasSub (sub : List Char) : List Char → Bool
  | [] => sub.isEmpty
  | c :: t => sub.isPrefixOf (c :: t) || hasSub sub t

/-- Go strings.Contains. -/
def strContains (s sub : String) : Bool :=
  hasSub sub.toList s.toList

/-- Go strings.ToLower restricted to ASCII, which is all the callers use. -/
def toLowerStr (s : String) : String :=
  String.mk (s.toList.map Char.toLower)

/-- Go filepath.Ext: the suffix of the final path element starting at its
    final dot, empty when there is no dot. -/
def goExt (s : String) : String :=
  let rec scan : List Char → List Char → List Char
    | acc, [] => acc
    | _acc, '/' :: t => scan [] t
    | _acc, '.' :: t => scan ('.' :: t.takeWhile (fun c => c ≠ '.' && c ≠ '/')) t
    | acc, _ :: t => scan acc t
  String.mk (scan [] s.toList)

/-! #### Audio format helpers (pkg/audio/format.go, internal/voice/minio.go) -/

/-- pkg/audio/format.go DetectAudioFormat: filename extension first,
    then Content-Type, default webm. -/
def detectAudioFormat (contentType filename : String) : String :=
  let byExt : Option String :=
    if filename ≠ "" then
      let ext := toLowerStr (goExt filename)
      if ext = ".webm" then some "webm"
      else if ext = ".m4a" ∨ ext = ".mp4" then some "m4a"
      else if ext = ".mp3" then some "mp3"
      else if ext = ".ogg" ∨ ext = ".opus" then some "ogg"
      else if ext = ".wav" then some "wav"
      else none
    else none
  match byExt with
  | some f => f
  | none =>
    if strContains contentType "webm" then "webm"
    else if strContains contentType "mp4" || strContains contentType "aac" then "m4a"
    else if strContains contentType "mpeg" || strContains contentType "mp3" then "mp3"
    else if strContains contentType "ogg" then "ogg"
    else if strContains contentType "wav" then "wav"
    else "webm"

/-- internal/voice/minio.go getContentType: audio format to MIME type. -/
def getContentType (audioFormat : String) : String :=
  if audioFormat = "webm" then "audio/webm"
  else if audioFormat = "m4a" ∨ audioFormat = "mp4" then "audio/mp4"
  else if audioFormat = "mp3" then "audio/mpeg"
  else if audioFormat = "ogg" ∨ audioFormat = "opus" then "audio/ogg"
  else if audioFormat = "wav" then "audio/wav"
  else "application/octet-stream"

/-! ### The upload pipeline (internal/voice/handler.go HandleUploadVoiceMessage) -/

/-- 5 MiB body cap (handler.go maxUploadSize). -/
def maxUploadSize : Nat := 5 * 1024 * 1024

/-- 15-second duration cap (handler.go maxDuration). -/
def maxDuration : Int := 15

/-- Calendar date as seen by time.Now() on the server (local clock). -/
structure Date where
  year : Nat
  month : Nat
  day : Nat
deriving DecidableEq, Repr

/-- Context carried by a blob-store call: the request context (10 s budget)
    or the independent context.Background()+3 s used for compensation. -/
inductive Ctx where
  | request
  | background3s
deriving DecidableEq, Repr

/-- Outcome of the membership probe roomStore.IsUserInRoom. -/
inductive ProbeResult where
  | err
  | ok (isMember : Bool)
deriving DecidableEq, Repr

/-- The audio multipart part.  handler.go line 125 discards the file header
    (file, _, err := r.FormFile("audio")), so filename and contentType are
    never consulted by the pipeline even though they arrive with the part. -/
structure AudioPart where
  dataLen : Nat
  filename : String
  contentType : String
deriving DecidableEq, Repr

/-- An upload request after transport decoding.
    roomField: none when the room_id form value is "", some none when it is
    present but not a well-formed UUID, some (some r) when it parses. -/
structure UploadRequest where
  senderID : Option Nat
  bodySize : Nat
  formValid : Bool
  roomField : Option (Option Nat)
  durationStr : String
  audio : Option AudioPart
deriving DecidableEq, Repr

/-- Oracles for the environment the request runs against. -/
structure UploadEnv where
  isMember : ProbeResult
  readOk : Bool
  freshID : Nat
  now : Date
  blobPutOk : Bool
  dbFreshID : Nat
  metaInsertOk : Bool
  presignOk : Bool
deriving DecidableEq, Repr

/-- Observable effects of one upload request. -/
structure UploadResult where
  status : Nat
  blobPuts : List String
  metaRows : List (Nat × String)
  blobDeletes : List (String × Ctx)
  respMsgID : Option Nat
deriving DecidableEq, Repr

/-- unnamed/part_002 UploadVoiceMessage, lines 33-42: the blob object name.
    fmt.Sprintf("messages/%d/%02d/%02d/%s.%s", now.Year(), now.Day(),
    now.Month(), messageID.String(), audioFormat) - note the source passes
    Day before Month.  Identifiers are modelled as naturals rendered in
    decimal in place of uuid.UUID.String(). -/
def s3KeyFor (d : Date) (id : Nat) (audioFormat : String) : String :=
  "messages/" ++ toString d.year ++ "/" ++ pad2 d.day ++ "/" ++ pad2 d.month
    ++ "/" ++ toString id ++ "." ++ audioFormat

/-- Empty result with a given status, for the early-return branches. -/
def bail (status : Nat) : UploadResult :=
  { status := status, blobPuts := [], metaRows := [], blobDeletes := [],
    respMsgID := none }

/-- internal/voice/handler.go HandleUploadVoiceMessage, translated branch by
    branch.  Status codes are the ones the source writes, including the
    StatusUnauthorized (401) on the oversized/at malformed body at line 89. -/
def processUpload (req : UploadRequest) (env : UploadEnv) : UploadResult :=
  -- line 80-84: senderID == uuid.Nil -> 401
  if req.senderID = none then bail 401
  -- line 87-91: MaxBytesReader + ParseMultipartForm failure -> writeError 401
  else if maxUploadSize < req.bodySize ∨ req.formValid = false then bail 401
  -- line 97-100: missing room_id or duration_seconds -> 400
  else if req.roomField = none ∨ req.durationStr = "" then bail 400
  else
    match req.roomField with
    -- line 102-106: uuid.Parse failure -> 400
    | none => bail 400
    | some none => bail 400
    | some (some _roomID) =>
      match goAtoi req.durationStr with
      -- line 108-112: Atoi error, duration <= 0, duration > 15 -> 400
      | none => bail 400
      | some duration =>
        if duration ≤ 0 ∨ maxDuration < duration then bail 400
        else
          -- line 118-122: membership probe; err or not a member -> 403
          match env.isMember with
          | ProbeResult.err => bail 403
          | ProbeResult.ok false => bail 403
          | ProbeResult.ok true =>
            match req.audio with
            -- line 125-129: missing audio part -> 400
            | none => bail 400
            | some part =>
              -- line 133-138: io.ReadAll failure -> 500
              if env.readOk = false then bail 500
              -- line 140-143: empty file -> 400
              else if part.dataLen = 0 then bail 400
              else
                -- line 146: audioFormat := "webm" (hardcoded default; the
                -- file header was discarded, DetectAudioFormat is not
                -- called), and line 164: message.ID = uuid.New(), giving
                -- the key s3KeyFor env.now env.freshID "webm".
                -- line 167-172: blob put; failure -> 500, nothing written
                if env.blobPutOk = false then bail 500
                -- line 177-188: metadata insert; on failure delete the blob
                -- under context.WithTimeout(context.Background(), 3 s), 500
                else if env.metaInsertOk = false then
                  { status := 500,
                    blobPuts := [s3KeyFor env.now env.freshID "webm"],
                    metaRows := [],
                    blobDeletes :=
                      [(s3KeyFor env.now env.freshID "webm", Ctx.background3s)],
                    respMsgID := none }
                else
                  -- internal/voice/postgres.go CreateVoiceMessage line 29
                  -- overwrites message.ID with a fresh uuid.New() before the
                  -- INSERT, so the stored and returned id is dbFreshID, not
                  -- the freshID embedded in the blob key.
                  { status := 201,
                    blobPuts := [s3KeyFor env.now env.freshID "webm"],
                    metaRows :=
                      [(env.dbFreshID, s3KeyFor env.now env.freshID "webm")],
                    blobDeletes := [],
                    respMsgID := some env.dbFreshID }

/-! ### Room-history pagination (handler.go HandleGetRoomMessages, lines 243-260) -/

/-- Effective page size: default 50; a parse with err == nil and a positive
    value overrides it, capped at 100. -/
def effLimit (s : String) : Int :=
  if s = "" then 50
  else
    match goAtoi s with
    | some v => if 0 < v then (if 100 < v then 100 else v) else 50
    | none => 50

/-- Effective offset: default 0; a parse with err == nil and a nonnegative
    value overrides it. -/
def effOffset (s : String) : Int :=
  if s = "" then 0
  else
    match goAtoi s with
    | some v => if 0 ≤ v then v else 0
    | none => 0

/-- Modelled from the spec: the mathematical decimal value of a query
    parameter, with no machine-integer range restriction.  This is the
    spec-side reading of the phrase "the given value" in the pagination
    claim, used to compare against the source's strconv.Atoi behaviour. -/
def specDecimalValue (s : String) : Option Nat :=
  digitsVal s.toList

/-! ### The per-room hub (unnamed/part_015) -/

abbrev ClientId := Nat

/-- The payload-bearing part of a ServerMessage (types.go MessageType plus
    the type-specific Data object).  Broadcast payloads other than the
    membership events are abstracted by an index. -/
inductive Envelope where
  | connectionAck (roomID userID : Nat)
  | userJoined (userID : Nat)
  | userLeft (userID : Nat)
  | voice (payload : Nat)
deriving DecidableEq, Repr

/-- A ServerMessage after the hub stamps message.Timestamp; handleBroadcast
    serialises it once and enqueues the same frame everywhere, so the frame
    is identified with the stamped message. -/
structure Stamped where
  env : Envelope
  ts : Nat
deriving DecidableEq, Repr

/-- A client's bounded outbound channel (send, capacity 256): its buffered
    frames in FIFO order and whether close(client.send) has run. -/
structure QState where
  buf : List Stamped
  closed : Bool
deriving DecidableEq, Repr

/-- Capacity of both the per-client send channel and the hub broadcast
    inbox (part_015 NewHub, 256). -/
def queueCapacity : Nat := 256

/-- The hub state owned by the part_015 event loop: the client set (as the
    Go map's key set in its iteration order), each client's outbound queue,
    the broadcast inbox, and the metrics counters. -/
structure Hub15 where
  roomID : Nat
  clients : List ClientId
  userOf : ClientId → Nat
  queues : ClientId → QState
  inbox : List Envelope
  sent : Nat
  dropped : Nat
  lastActivity : Nat

/-- part_015 handleUnregister, lines 110-126: if present, remove the client,
    close its send channel, update metrics, and broadcast user_left (the
    source's blocking h.broadcast send, modelled as its completed effect). -/
def handleUnregister (h : Hub15) (c : ClientId) : Hub15 :=
  if c ∈ h.clients then
    { h with
      clients := h.clients.erase c,
      queues := fun x => if x = c then { h.queues c with closed := true } else h.queues x,
      inbox := h.inbox ++ [Envelope.userLeft (h.userOf c)] }
  else h

/-- part_015 handleBroadcast loop body, lines 139-153: select with default
    on client.send; success bumps MessagesSent, a full queue bumps
    MessagesDropped and unregisters the client inline. -/
def tryEnqueue (m : Stamped) (h : Hub15) (c : ClientId) : Hub15 :=
  let q := h.queues c
  if q.buf.length < queueCapacity then
    { h with
      queues := fun x => if x = c then { q with buf := q.buf ++ [m] } else h.queues x,
      sent := h.sent + 1 }
  else
    handleUnregister { h with dropped := h.dropped + 1 } c

/-- part_015 handleBroadcast, lines 128-154: stamp the timestamp, serialise
    once, and visit every client.  The Go loop ranges over the clients map
    and only ever deletes the entry it is currently visiting, so iterating
    the snapshot of the key set is faithful; marshalling a ServerMessage
    built from plain data cannot fail. -/
def handleBroadcast (h : Hub15) (now : Nat) (m : Envelope) : Hub15 :=
  h.clients.foldl (tryEnqueue { env := m, ts := now })
    { h with lastActivity := now }

/-- Modelled from the spec: Client.SendMessage.  The Client type paired with
    this hub generation is absent from the sources (only its use sites
    survive); spec section 4.C specifies a synchronous direct enqueue onto
    the client's outbound queue with the same non-blocking policy as
    broadcast delivery. -/
def sendMessageDirect (h : Hub15) (c : ClientId) (m : Stamped) : Hub15 :=
  let q := h.queues c
  if q.buf.length < queueCapacity then
    { h with
      queues := fun x => if x = c then { q with buf := q.buf ++ [m] } else h.queues x }
  else h

/-- part_015 handleRegister, lines 83-108: insert into the client set
    (a repeated register of a present client leaves the map unchanged),
    send the connection_ack directly, then broadcast user_joined. -/
def handleRegister (h : Hub15) (now : Nat) (c : ClientId) : Hub15 :=
  let h1 := { h with
    clients := if c ∈ h.clients then h.clients else h.clients ++ [c] }
  let h2 := sendMessageDirect h1 c
    { env := Envelope.connectionAck h.roomID (h.userOf c), ts := now }
  { h2 with inbox := h2.inbox ++ [Envelope.userJoined (h.userOf c)] }

/-- part_015 Send, lines 192-201: the external entry point, a select with
    default on the capacity-256 inbox; a full inbox increments
    MessagesDropped and returns without blocking. -/
def hubSend (h : Hub15) (m : Envelope) : Hub15 :=
  if h.inbox.length < queueCapacity then { h with inbox := h.inbox ++ [m] }
  else { h with dropped := h.dropped + 1 }

/-! ### The other hub generation (internal/websocket/hub.go) -/

/-- Outcome of a plain Go channel send on a bounded channel: accepted when
    buffer space exists, otherwise the sending goroutine waits. -/
inductive ChanSend (α : Type) where
  | accepted (queue : List α)
  | blocked
deriving DecidableEq, Repr

/-- A plain (blocking) channel send: ch has capacity cap and currently
    buffers queue. -/
def chanSendBlocking {α : Type} (cap : Nat) (queue : List α) (v : α) : ChanSend α :=
  if queue.length < cap then ChanSend.accepted (queue ++ [v]) else ChanSend.blocked

/-- An entry of the generation-2 hub's broadcast inbox. -/
structure BMsg where
  roomID : Nat
  payload : Envelope
deriving DecidableEq, Repr

/-- internal/websocket/hub.go BroadcastToRoom, lines 190-214: the public
    entry the voice upload pipeline calls through its WebSocketHub
    interface.  After converting the message it runs a plain send
    h.broadcast <- &BroadcastMessage on the capacity-256 inbox: there is
    no select/default and no drop counter in this generation. -/
def broadcastToRoomG2 (inbox : List BMsg) (roomID : Nat) (payload : Envelope) :
    ChanSend BMsg :=
  chanSendBlocking 256 inbox { roomID := roomID, payload := payload }

/-- The conjunction of all conditions under which HandleUploadVoiceMessage
    reaches the metadata insert with the blob already written: authenticated
    sender, body within the cap, parseable form, well-formed room id,
    duration parsed into [1,15], membership confirmed, non-empty audio part
    read successfully, and a successful blob put. -/
def reachesBlobPut (req : UploadRequest) (env : UploadEnv) : Prop :=
  req.senderID ≠ none ∧ req.bodySize ≤ maxUploadSize ∧ req.formValid = true ∧
  (∃ r, req.roomField = some (some r)) ∧ req.durationStr ≠ "" ∧
  (∃ d, goAtoi req.durationStr = some d ∧ 1 ≤ d ∧ d ≤ 15) ∧
  env.isMember = ProbeResult.ok true ∧
  (∃ p, req.audio = some p ∧ p.dataLen ≠ 0) ∧
  env.readOk = true ∧ env.blobPutOk = true

/-! ### Concrete fixtures used by witnesses and counterexamples -/

/-- A fully valid upload request: authenticated sender, 1000-byte body,
    parsed room id, duration 3, and an mp3-named audio part. -/
def reqOK : UploadRequest :=
  { senderID := some 1, bodySize := 1000, formValid := true,
    roomField := some (some 2), durationStr := "3",
    audio := some { dataLen := 4, filename := "voice.mp3",
                    contentType := "audio/mpeg" } }

/-- A fully cooperative environment on local date 2025-01-02; the handler
    allocates id 7 and the database layer regenerates id 8. -/
def envOK : UploadEnv :=
  { isMember := ProbeResult.ok true, readOk := true, freshID := 7,
    now := { year := 2025, month := 1, day := 2 }, blobPutOk := true,
    dbFreshID := 8, metaInsertOk := true, presignOk := true }

/-- A queue buffering n copies of one frame. -/
def fullQ (n : Nat) : QState :=
  { buf := List.replicate n { env := Envelope.voice 0, ts := 0 }, closed := false }

/-- Hub with two clients: client 0 has a full queue, client 1 an empty one. -/
def hubW : Hub15 :=
  { roomID := 42, clients := [0, 1], userOf := fun x => x + 100,
    queues := fun x => if x = 0 then fullQ 256 else fullQ 0,
    inbox := [], sent := 0, dropped := 0, lastActivity := 0 }

/-- Hub with no clients and empty queues, for a fresh register. -/
def hubR : Hub15 :=
  { roomID := 42, clients := [], userOf := fun x => x + 100,
    queues := fun _ => fullQ 0,
    inbox := [], sent := 0, dropped := 0, lastActivity := 0 }

/-- Hub whose broadcast inbox is at capacity. -/
def hubFull : Hub15 :=
  { hubR with inbox := List.replicate 256 (Envelope.voice 0) }

/-! ## Helper lemmas about the hub event loop -/

theorem tryEnqueue_queues_ne (m : Stamped) (h : Hub15) (c x : ClientId)
    (hx : x ≠ c) : (tryEnqueue m h c).queues x = h.queues x := by
  simp only [tryEnqueue, handleUnregister]
  split
  · simp [hx]
  · split
    · simp [hx]
    · rfl

theorem tryEnqueue_clients_subset (m : Stamped) (h : Hub15) (c : ClientId) :
    (tryEnqueue m h c).clients ⊆ h.clients := by
  simp only [tryEnqueue, handleUnregister]
  split
  · exact fun _ hx => hx
  · split
    · exact fun _ hx => List.mem_of_mem_erase hx
    · exact fun _ hx => hx

theorem tryEnqueue_mem_ne (m : Stamped) (h : Hub15) (c x : ClientId)
    (hx : x ≠ c) (hm : x ∈ h.clients) : x ∈ (tryEnqueue m h c).clients := by
  simp only [tryEnqueue, handleUnregister]
  split
  · exact hm
  · split
    · exact (List.mem_erase_of_ne hx).mpr hm
    · exact hm

theorem tryEnqueue_nodup (m : Stamped) (h : Hub15) (c : ClientId)
    (hnd : h.clients.Nodup) : (tryEnqueue m h c).clients.Nodup := by
  simp only [tryEnqueue, handleUnregister]
  split
  · exact hnd
  · split
    · exact hnd.erase c
    · exact hnd

theorem tryEnqueue_full (m : Stamped) (h : Hub15) (c : ClientId)
    (hc : c ∈ h.clients)
    (hfull : ¬ (h.queues c).buf.length < queueCapacity) :
    tryEnqueue m h c =
      { h with
        clients := h.clients.erase c,
        queues := fun x =>
          if x = c then { h.queues c with closed := true } else h.queues x,
        inbox := h.inbox ++ [Envelope.userLeft (h.userOf c)],
        dropped := h.dropped + 1 } := by
  simp only [tryEnqueue, handleUnregister]
  rw [if_neg hfull, if_pos hc]

theorem tryEnqueue_notfull (m : Stamped) (h : Hub15) (c : ClientId)
    (hfull : (h.queues c).buf.length < queueCapacity) :
    tryEnqueue m h c =
      { h with
        queues := fun x =>
          if x = c then { h.queues c with buf := (h.queues c).buf ++ [m] }
          else h.queues x,
        sent := h.sent + 1 } := by
  simp only [tryEnqueue]
  rw [if_pos hfull]

theorem foldl_queues_not_mem (m : Stamped) :
    ∀ (l : List ClientId) (acc : Hub15) (c : ClientId), c ∉ l →
      (l.foldl (tryEnqueue m) acc).queues c = acc.queues c := by
  intro l
  induction l with
  | nil => intro acc c _; rfl
  | cons y t ih =>
    intro acc c hc
    have hcy : c ≠ y := fun hEq => hc (hEq ▸ List.mem_cons_self y t)
    have hct : c ∉ t := fun hm => hc (List.mem_cons_of_mem y hm)
    rw [List.foldl_cons, ih (tryEnqueue m acc y) c hct,
      tryEnqueue_queues_ne m acc y c hcy]

theorem foldl_not_mem_clients (m : Stamped) :
    ∀ (l : List ClientId) (acc : Hub15) (c : ClientId), c ∉ acc.clients →
      c ∉ (l.foldl (tryEnqueue m) acc).clients := by
  intro l
  induction l with
  | nil => intro acc c hc; exact hc
  | cons y t ih =>
    intro acc c hc
    rw [List.foldl_cons]
    exact ih (tryEnqueue m acc y) c
      (fun hmem => hc (tryEnqueue_clients_subset m acc y hmem))

theorem tryEnqueue_head (m : Stamped) (h : Hub15) (c y : ClientId)
    (a : Stamped) (hh : (h.queues c).buf.head? = some a) :
    ((tryEnqueue m h y).queues c).buf.head? = some a := by
  by_cases hcy : c = y
  · subst hcy
    by_cases hfull : (h.queues c).buf.length < queueCapacity
    · rw [tryEnqueue_notfull m h c hfull]
      rcases hbuf : (h.queues c).buf with _ | ⟨b, rest⟩
      · rw [hbuf] at hh; cases hh
      · rw [hbuf] at hh
        simp at hh
        simp [hbuf, hh]
    · by_cases hc : c ∈ h.clients
      · rw [tryEnqueue_full m h c hc hfull]
        simpa using hh
      · simp only [tryEnqueue, handleUnregister]
        rw [if_neg hfull, if_neg hc]
        exact hh
  · rw [tryEnqueue_queues_ne m h y c hcy]
    exact hh

theorem foldl_head (m : Stamped) :
    ∀ (l : List ClientId) (acc : Hub15) (c : ClientId) (a : Stamped),
      (acc.queues c).buf.head? = some a →
      ((l.foldl (tryEnqueue m) acc).queues c).buf.head? = some a := by
  intro l
  induction l with
  | nil => intro acc c a ha; exact ha
  | cons y t ih =>
    intro acc c a ha
    rw [List.foldl_cons]
    exact ih (tryEnqueue m acc y) c a (tryEnqueue_head m acc c y a ha)

/-- Master invariant of the handleBroadcast fold: over a duplicate-free
    suffix of the visit list whose queues the fold has not yet touched and
    whose members are still registered, the fold adds one MessagesSent per
    non-full queue, one MessagesDropped per full queue, and every client
    with a full queue ends up unregistered, with its channel closed and its
    buffered frames unchanged. -/
theorem foldl_broadcast_master (m : Stamped) (h0 : Hub15) :
    ∀ (l : List ClientId) (acc : Hub15),
      l.Nodup → acc.clients.Nodup →
      (∀ x ∈ l, acc.queues x = h0.queues x) →
      (∀ x ∈ l, x ∈ acc.clients) →
      (l.foldl (tryEnqueue m) acc).sent =
          acc.sent + (l.filter
            (fun x => decide ((h0.queues x).buf.length < queueCapacity))).length ∧
      (l.foldl (tryEnqueue m) acc).dropped =
          acc.dropped + (l.filter
            (fun x => ! decide ((h0.queues x).buf.length < queueCapacity))).length ∧
      (∀ x ∈ l, ¬ (h0.queues x).buf.length < queueCapacity →
        x ∉ (l.foldl (tryEnqueue m) acc).clients ∧
        ((l.foldl (tryEnqueue m) acc).queues x).closed = true ∧
        ((l.foldl (tryEnqueue m) acc).queues x).buf = (h0.queues x).buf) := by
  intro l
  induction l with
  | nil =>
    intro acc _ _ _ _
    refine ⟨by simp, by simp, ?_⟩
    intro x hx
    cases hx
  | cons y t ih =>
    intro acc hnd haccnd hq hmem
    have hynd : y ∉ t := (List.nodup_cons.mp hnd).1
    have htnd : t.Nodup := (List.nodup_cons.mp hnd).2
    have hqy : acc.queues y = h0.queues y := hq y (List.mem_cons_self y t)
    have hmy : y ∈ acc.clients := hmem y (List.mem_cons_self y t)
    by_cases hfull : (h0.queues y).buf.length < queueCapacity
    · -- queue not full: plain enqueue, MessagesSent increments
      have hstep := tryEnqueue_notfull m acc y (by rw [hqy]; exact hfull)
      have hq' : ∀ x ∈ t, (tryEnqueue m acc y).queues x = h0.queues x := by
        intro x hx
        have hxy : x ≠ y := fun hEq => hynd (hEq ▸ hx)
        rw [tryEnqueue_queues_ne m acc y x hxy]
        exact hq x (List.mem_cons_of_mem y hx)
      have hmem' : ∀ x ∈ t, x ∈ (tryEnqueue m acc y).clients := by
        intro x hx
        have hxy : x ≠ y := fun hEq => hynd (hEq ▸ hx)
        exact tryEnqueue_mem_ne m acc y x hxy (hmem x (List.mem_cons_of_mem y hx))
      have hnd' : (tryEnqueue m acc y).clients.Nodup := tryEnqueue_nodup m acc y haccnd
      obtain ⟨ihs, ihd, ihp⟩ := ih (tryEnqueue m acc y) htnd hnd' hq' hmem'
      have hsent : (tryEnqueue m acc y).sent = acc.sent + 1 := by rw [hstep]
      have hdrop : (tryEnqueue m acc y).dropped = acc.dropped := by rw [hstep]
      refine ⟨?_, ?_, ?_⟩
      · rw [List.foldl_cons, ihs, hsent, List.filter_cons]
        simp [hfull, Nat.add_comm, Nat.add_assoc, Nat.add_left_comm]
      · rw [List.foldl_cons, ihd, hdrop, List.filter_cons]
        simp [hfull]
      · intro x hx hxfull
        rcases List.mem_cons.mp hx with hxy | hxt
        · exact absurd (hxy ▸ hfull) hxfull
        · rw [List.foldl_cons]
          exact ihp x hxt hxfull
    · -- queue full: MessagesDropped increments and y is unregistered inline
      have hstep := tryEnqueue_full m acc y hmy (by rw [hqy]; exact hfull)
      have hq' : ∀ x ∈ t, (tryEnqueue m acc y).queues x = h0.queues x := by
        intro x hx
        have hxy : x ≠ y := fun hEq => hynd (hEq ▸ hx)
        rw [tryEnqueue_queues_ne m acc y x hxy]
        exact hq x (List.mem_cons_of_mem y hx)
      have hmem' : ∀ x ∈ t, x ∈ (tryEnqueue m acc y).clients := by
        intro x hx
        have hxy : x ≠ y := fun hEq => hynd (hEq ▸ hx)
        exact tryEnqueue_mem_ne m acc y x hxy (hmem x (List.mem_cons_of_mem y hx))
      have hnd' : (tryEnqueue m acc y).clients.Nodup := tryEnqueue_nodup m acc y haccnd
      obtain ⟨ihs, ihd, ihp⟩ := ih (tryEnqueue m acc y) htnd hnd' hq' hmem'
      have hsent : (tryEnqueue m acc y).sent = acc.sent := by rw [hstep]
      have hdrop : (tryEnqueue m acc y).dropped = acc.dropped + 1 := by rw [hstep]
      refine ⟨?_, ?_, ?_⟩
      · rw [List.foldl_cons, ihs, hsent, List.filter_cons]
        simp [hfull]
      · rw [List.foldl_cons, ihd, hdrop, List.filter_cons]
        simp [hfull, Nat.add_comm, Nat.add_assoc, Nat.add_left_comm]
      · intro x hx hxfull
        rcases List.mem_cons.mp hx with hxy | hxt
        · -- x is the full client being visited now
          subst hxy
          rw [List.foldl_cons]
          have hout : x ∉ (tryEnqueue m acc x).clients := by
            rw [hstep]
            intro hmemErase
            exact ((haccnd.mem_erase_iff).mp hmemErase).1 rfl
          have hclosed : ((tryEnqueue m acc x).queues x).closed = true := by
            rw [hstep]; simp
          have hbuf : ((tryEnqueue m acc x).queues x).buf = (h0.queues x).buf := by
            rw [hstep]; simp [hqy]
          refine ⟨foldl_not_mem_clients m t (tryEnqueue m acc x) x hout, ?_, ?_⟩
          · rw [foldl_queues_not_mem m t (tryEnqueue m acc x) x hynd, hclosed]
          · rw [foldl_queues_not_mem m t (tryEnqueue m acc x) x hynd, hbuf]
        · rw [List.foldl_cons]
          exact ihp x hxt hxfull

/-! ## Claim theorems -/

/-- C3: during hub broadcast processing, every client whose bounded
    outbound queue is full at enqueue time has messages_dropped incremented
    and the unregister handler invoked inline (it leaves the client set and
    its queue is closed, its buffered frames untouched), so it receives no
    envelope dispatched to the hub afterwards; every successful enqueue
    increments messages_sent. -/
theorem hub_broadcast_slow_consumer_eviction
    (h : Hub15) (now : Nat) (m : Envelope) (c : ClientId)
    (hnd : h.clients.Nodup) (hc : c ∈ h.clients)
    (hfull : queueCapacity ≤ (h.queues c).buf.length) :
    c ∉ (handleBroadcast h now m).clients ∧
    ((handleBroadcast h now m).queues c).closed = true ∧
    ((handleBroadcast h now m).queues c).buf = (h.queues c).buf ∧
    (handleBroadcast h now m).dropped =
      h.dropped + (h.clients.filter
        (fun x => ! decide ((h.queues x).buf.length < queueCapacity))).length ∧
    (handleBroadcast h now m).sent =
      h.sent + (h.clients.filter
        (fun x => decide ((h.queues x).buf.length < queueCapacity))).length ∧
    ∀ (now2 : Nat) (m2 : Envelope),
      (handleBroadcast (handleBroadcast h now m) now2 m2).queues c =
        (handleBroadcast h now m).queues c := by
  have hfull' : ¬ (h.queues c).buf.length < queueCapacity := Nat.not_lt.mpr hfull
  obtain ⟨ms, md, mp⟩ :=
    foldl_broadcast_master { env := m, ts := now } h h.clients
      { h with lastActivity := now } hnd hnd (fun _ _ => rfl) (fun _ hx => hx)
  obtain ⟨hout, hclosed, hbuf⟩ := mp c hc hfull'
  refine ⟨hout, hclosed, hbuf, md, ms, ?_⟩
  intro now2 m2
  exact foldl_queues_not_mem { env := m2, ts := now2 }
    (handleBroadcast h now m).clients
    { handleBroadcast h now m with lastActivity := now2 } c hout

set_option maxRecDepth 16384 in
/-- Witness for C3 on the concrete hub hubW: client 0 has a full queue and
    is evicted by one broadcast. -/
theorem hub_broadcast_slow_consumer_eviction_witness :
    0 ∉ (handleBroadcast hubW 5 (Envelope.voice 9)).clients ∧
    ((handleBroadcast hubW 5 (Envelope.voice 9)).queues 0).closed = true ∧
    (handleBroadcast hubW 5 (Envelope.voice 9)).dropped = hubW.dropped + 1 ∧
    (handleBroadcast hubW 5 (Envelope.voice 9)).sent = hubW.sent + 1 := by
  have t := hub_broadcast_slow_consumer_eviction hubW 5 (Envelope.voice 9) 0
    (by decide) (by decide) (by decide)
  refine ⟨t.1, t.2.1, ?_, ?_⟩
  · rw [t.2.2.2.1]
    decide
  · rw [t.2.2.2.2.1]
    decide

/-- C4: registering a fresh client inserts it into the client set and
    synchronously enqueues the connection_ack directly onto its (empty)
    outbound queue, then broadcasts user_joined through the inbox; the ack
    stays at the head of the queue across any later broadcast, so it is the
    first envelope the joining client ever receives. -/
theorem hub_register_ack_first
    (h : Hub15) (now : Nat) (c : ClientId)
    (hc : c ∉ h.clients)
    (hq : h.queues c = { buf := [], closed := false }) :
    c ∈ (handleRegister h now c).clients ∧
    ((handleRegister h now c).queues c).buf =
      [{ env := Envelope.connectionAck h.roomID (h.userOf c), ts := now }] ∧
    ((handleRegister h now c).queues c).closed = false ∧
    (handleRegister h now c).inbox =
      h.inbox ++ [Envelope.userJoined (h.userOf c)] ∧
    ∀ (now2 : Nat) (m2 : Envelope),
      (((handleBroadcast (handleRegister h now c) now2 m2).queues c).buf).head? =
        some { env := Envelope.connectionAck h.roomID (h.userOf c), ts := now } := by
  have hmem : c ∈ (handleRegister h now c).clients := by
    simp [handleRegister, sendMessageDirect, hc, hq, queueCapacity]
  have hbuf : ((handleRegister h now c).queues c).buf =
      [{ env := Envelope.connectionAck h.roomID (h.userOf c), ts := now }] := by
    simp [handleRegister, sendMessageDirect, hc, hq, queueCapacity]
  have hclosed : ((handleRegister h now c).queues c).closed = false := by
    simp [handleRegister, sendMessageDirect, hc, hq, queueCapacity]
  have hinbox : (handleRegister h now c).inbox =
      h.inbox ++ [Envelope.userJoined (h.userOf c)] := by
    simp [handleRegister, sendMessageDirect, hc, hq, queueCapacity]
  refine ⟨hmem, hbuf, hclosed, hinbox, ?_⟩
  intro now2 m2
  exact foldl_head { env := m2, ts := now2 }
    (handleRegister h now c).clients
    { handleRegister h now c with lastActivity := now2 } c _
    (by rw [show ({ handleRegister h now c with lastActivity := now2 } :
        Hub15).queues = (handleRegister h now c).queues from rfl, hbuf]; rfl)

/-- Witness for C4 on the concrete empty hub hubR: registering client 3 at
    time 9 leaves exactly the connection_ack in its queue. -/
theorem hub_register_ack_first_witness :
    3 ∈ (handleRegister hubR 9 3).clients ∧
    ((handleRegister hubR 9 3).queues 3).buf =
      [{ env := Envelope.connectionAck 42 103, ts := 9 }] ∧
    (handleRegister hubR 9 3).inbox = [Envelope.userJoined 103] := by
  have t := hub_register_ack_first hubR 9 3 (by decide) rfl
  exact ⟨t.1, t.2.1, t.2.2.2.1⟩

/-- C5 (amended): the part_015 Send entry point never blocks - on a full
    inbox it leaves the inbox unchanged, increments messages_dropped and
    returns, otherwise it enqueues; but the upload pipeline's fan-out call
    goes through the generation-2 BroadcastToRoom, whose plain channel send
    blocks on a full inbox and maintains no drop counter. -/
theorem hub_send_nonblocking_pipeline_blocking
    (h : Hub15) (m : Envelope) (inbox : List BMsg) (r : Nat) (p : Envelope) :
    (queueCapacity ≤ h.inbox.length →
      hubSend h m = { h with dropped := h.dropped + 1 }) ∧
    (h.inbox.length < queueCapacity →
      hubSend h m = { h with inbox := h.inbox ++ [m] }) ∧
    (256 ≤ inbox.length → broadcastToRoomG2 inbox r p = ChanSend.blocked) ∧
    (inbox.length < 256 → broadcastToRoomG2 inbox r p =
      ChanSend.accepted (inbox ++ [{ roomID := r, payload := p }])) := by
  refine ⟨?_, ?_, ?_, ?_⟩
  · intro hge
    simp [hubSend, Nat.not_lt.mpr hge]
  · intro hlt
    simp [hubSend, hlt]
  · intro hge
    simp [broadcastToRoomG2, chanSendBlocking, Nat.not_lt.mpr hge]
  · intro hlt
    simp [broadcastToRoomG2, chanSendBlocking, hlt]

set_option maxRecDepth 16384 in
/-- Witness for C5: a full part_015 inbox drops and counts, while an empty
    generation-2 inbox accepts. -/
theorem hub_send_nonblocking_pipeline_blocking_witness :
    hubSend hubFull (Envelope.voice 1) =
      { hubFull with dropped := hubFull.dropped + 1 } ∧
    broadcastToRoomG2 ([] : List BMsg) 1 (Envelope.voice 2) =
      ChanSend.accepted [{ roomID := 1, payload := Envelope.voice 2 }] := by
  have t := hub_send_nonblocking_pipeline_blocking hubFull (Envelope.voice 1)
    ([] : List BMsg) 1 (Envelope.voice 2)
  exact ⟨t.1 (by decide), t.2.2.2 (by decide)⟩

set_option maxRecDepth 16384 in
/-- Counterexample for C5 as frozen: the claim asserts the non-blocking
    drop-and-count behaviour for every caller including the upload
    pipeline's fan-out, but the fan-out entry (hub.go BroadcastToRoom)
    performs a plain channel send, which blocks when the 256-slot inbox is
    full instead of dropping and returning. -/
theorem upload_fanout_entry_blocks_on_full_inbox :
    broadcastToRoomG2
      (List.replicate 256 { roomID := 0, payload := Envelope.voice 0 }) 1
      (Envelope.voice 2) = ChanSend.blocked := by
  simp [broadcastToRoomG2, chanSendBlocking]

/-- Shape analysis of the upload pipeline: every run either bails out with
    a non-201 status and no effects, or fails the metadata insert after a
    successful blob put and compensates, or succeeds with validated
    duration and confirmed membership. -/
theorem processUpload_shape (req : UploadRequest) (env : UploadEnv) :
    (∃ s, s ≠ 201 ∧ processUpload req env = bail s) ∨
    ((∃ d, goAtoi req.durationStr = some d ∧ 1 ≤ d ∧ d ≤ 15) ∧
      env.isMember = ProbeResult.ok true ∧ env.metaInsertOk = false ∧
      processUpload req env =
      { status := 500, blobPuts := [s3KeyFor env.now env.freshID "webm"],
        metaRows := [],
        blobDeletes := [(s3KeyFor env.now env.freshID "webm", Ctx.background3s)],
        respMsgID := none }) ∨
    ((∃ d, goAtoi req.durationStr = some d ∧ 1 ≤ d ∧ d ≤ 15) ∧
      env.isMember = ProbeResult.ok true ∧
      processUpload req env =
      { status := 201, blobPuts := [s3KeyFor env.now env.freshID "webm"],
        metaRows := [(env.dbFreshID, s3KeyFor env.now env.freshID "webm")],
        blobDeletes := [], respMsgID := some env.dbFreshID }) := by
  unfold processUpload
  repeat' split
  all_goals try (refine Or.inl ⟨_, ?_, rfl⟩ ; decide)
  all_goals first
    | (refine Or.inr (Or.inl
          ⟨⟨_, by assumption, ?_, ?_⟩, by assumption, by assumption, rfl⟩) <;>
        (simp only [maxDuration, not_or, not_le, not_lt] at * ; omega))
    | (refine Or.inr (Or.inr ⟨⟨_, by assumption, ?_, ?_⟩, by assumption, rfl⟩) <;>
        (simp only [maxDuration, not_or, not_le, not_lt] at * ; omega))

/-- C1: when the blob put has succeeded and the metadata insert fails, the
    pipeline deletes exactly the key the put returned under the independent
    3-second background context and answers 500; in general, whenever a blob
    was written, either a metadata row references that key or a blob delete
    for that key under the independent context has been invoked. -/
theorem upload_metadata_failure_compensation
    (req : UploadRequest) (env : UploadEnv) :
    (reachesBlobPut req env → env.metaInsertOk = false →
      processUpload req env =
        { status := 500,
          blobPuts := [s3KeyFor env.now env.freshID "webm"],
          metaRows := [],
          blobDeletes := [(s3KeyFor env.now env.freshID "webm", Ctx.background3s)],
          respMsgID := none }) ∧
    (∀ k, (processUpload req env).blobPuts = [k] →
      ((∃ row ∈ (processUpload req env).metaRows, row.2 = k) ∨
        (k, Ctx.background3s) ∈ (processUpload req env).blobDeletes)) := by
  constructor
  · rintro ⟨hs, hsize, hform, ⟨r, hroom⟩, hdur0, ⟨d, hd, hd1, hd15⟩,
      hmem, ⟨p, hp, hplen⟩, hread, hput⟩ hmeta
    have hsize2 : ¬ maxUploadSize < req.bodySize := Nat.not_lt.mpr hsize
    have hdg : ¬ (d ≤ 0 ∨ maxDuration < d) := by
      simp only [maxDuration]
      omega
    simp [processUpload, hs, hsize2, hform, hdur0, hroom, hd, hdg, hmem,
      hp, hread, hput, hplen, hmeta]
  · intro k hk
    rcases processUpload_shape req env with
      ⟨s, _, heq⟩ | ⟨_, _, _, heq⟩ | ⟨_, _, heq⟩
    · rw [heq] at hk
      simp [bail] at hk
    · rw [heq] at hk ⊢
      simp at hk
      subst hk
      simp
    · rw [heq] at hk ⊢
      simp at hk
      subst hk
      simp

/-- Witness for C1 at a concrete request whose metadata insert fails. -/
theorem upload_metadata_failure_compensation_witness :
    processUpload reqOK { envOK with metaInsertOk := false } =
      { status := 500,
        blobPuts := ["messages/2025/02/01/7.webm"],
        metaRows := [],
        blobDeletes := [("messages/2025/02/01/7.webm", Ctx.background3s)],
        respMsgID := none } := by
  have t := upload_metadata_failure_compensation reqOK
    { envOK with metaInsertOk := false }
  have h1 := t.1 (by
    refine ⟨by decide, by decide, by decide, ⟨2, by decide⟩, by decide,
      ⟨3, by decide, by decide, by decide⟩, by decide,
      ⟨_, rfl, by decide⟩, by decide, by decide⟩) rfl
  rw [h1]
  decide

/-- C2: an accepted upload (201) always carries a parsed duration in
    [1,15]; and an authenticated, size- and form-valid request whose
    duration does not parse into [1,15] is answered 400 with no blob put,
    no metadata insert and no blob delete. -/
theorem upload_duration_validation
    (req : UploadRequest) (env : UploadEnv) :
    ((processUpload req env).status = 201 →
      ∃ d, goAtoi req.durationStr = some d ∧ 1 ≤ d ∧ d ≤ 15) ∧
    (req.senderID ≠ none → req.bodySize ≤ maxUploadSize →
      req.formValid = true →
      ¬ (∃ d, goAtoi req.durationStr = some d ∧ 1 ≤ d ∧ d ≤ 15) →
      processUpload req env = bail 400) ∧
    (¬ (∃ d, goAtoi req.durationStr = some d ∧ 1 ≤ d ∧ d ≤ 15) →
      (processUpload req env).blobPuts = [] ∧
      (processUpload req env).metaRows = []) := by
  refine ⟨?_, ?_, ?_⟩
  · intro h201
    rcases processUpload_shape req env with
      ⟨s, hs201, heq⟩ | ⟨hdur, _, _, heq⟩ | ⟨hdur, _, heq⟩
    · rw [heq] at h201
      exact absurd h201 (by simpa [bail] using hs201)
    · exact hdur
    · exact hdur
  · intro hs hsize hform hbad
    have hsize2 : ¬ (maxUploadSize < req.bodySize ∨ req.formValid = false) := by
      rintro (h | h)
      · exact absurd h (Nat.not_lt.mpr hsize)
      · rw [hform] at h
        cases h
    unfold processUpload
    rw [if_neg hs, if_neg hsize2]
    repeat' split
    all_goals try rfl
    all_goals
      (exfalso
       apply hbad
       refine ⟨_, by assumption, ?_, ?_⟩ <;>
         (simp only [maxDuration, not_or, not_le, not_lt] at * ; omega))
  · intro hbad
    rcases processUpload_shape req env with
      ⟨s, _, heq⟩ | ⟨hdur, _, _, heq⟩ | ⟨hdur, _, heq⟩
    · rw [heq]
      exact ⟨rfl, rfl⟩
    · exact absurd hdur hbad
    · exact absurd hdur hbad

/-- Witness for C2: a duration of 20 is rejected with 400 and no effects. -/
theorem upload_duration_validation_witness :
    processUpload { reqOK with durationStr := "20" } envOK = bail 400 := by
  exact (upload_duration_validation { reqOK with durationStr := "20" } envOK).2.1
    (by decide) (by decide) (by decide)
    (by rintro ⟨d, hd, h1, h15⟩
        rw [show goAtoi "20" = some 20 from by decide] at hd
        cases hd
        omega)

/-- C6: evaluating the pipeline on local date 2025-01-02 with handler id 7
    and database id 8, the blob key comes out messages/2025/02/01/7.webm -
    day and month swapped relative to the claimed messages/YYYY/MM/DD - and
    the metadata row and 201 response carry id 8, not the id 7 embedded in
    the key, because postgres.go CreateVoiceMessage regenerates message.ID
    before the INSERT. -/
theorem upload_blob_key_swapped_and_id_regenerated :
    (processUpload reqOK envOK).blobPuts = ["messages/2025/02/01/7.webm"] ∧
    ¬ (processUpload reqOK envOK).blobPuts = ["messages/2025/01/02/7.webm"] ∧
    (processUpload reqOK envOK).respMsgID = some 8 ∧
    ¬ (processUpload reqOK envOK).respMsgID = some envOK.freshID ∧
    (processUpload reqOK envOK).metaRows = [(8, "messages/2025/02/01/7.webm")] := by
  decide

/-- C7 (amended): in the upload pipeline's authorisation step, a membership
    probe returning false and a probe failing with an error are both
    answered 403 with no effects; the handler (handler.go line 119) merges
    err != nil with !isInRoom and never produces 500 there. -/
theorem upload_authorise_always_403
    (req : UploadRequest) (env : UploadEnv)
    (hs : req.senderID ≠ none) (hsize : req.bodySize ≤ maxUploadSize)
    (hform : req.formValid = true) (r : Nat)
    (hroom : req.roomField = some (some r))
    (d : Int) (hd : goAtoi req.durationStr = some d)
    (hd1 : 1 ≤ d) (hd15 : d ≤ 15)
    (hmem : env.isMember = ProbeResult.err ∨
      env.isMember = ProbeResult.ok false) :
    processUpload req env = bail 403 := by
  have hsize2 : ¬ (maxUploadSize < req.bodySize ∨ req.formValid = false) := by
    rintro (h | h)
    · exact absurd h (Nat.not_lt.mpr hsize)
    · rw [hform] at h
      cases h
  have hdur0 : req.durationStr ≠ "" := by
    intro h
    rw [h, show goAtoi "" = none from rfl] at hd
    cases hd
  have hroomne : ¬ (req.roomField = none ∨ req.durationStr = "") := by
    rintro (h | h)
    · rw [hroom] at h
      cases h
    · exact hdur0 h
  have hdg : ¬ (d ≤ 0 ∨ maxDuration < d) := by
    simp only [maxDuration]
    omega
  rcases hmem with hm | hm <;>
    simp [processUpload, hs, hsize2, hroomne, hdur0, hroom, hd, hdg, hm]

/-- Witness for C7's amended theorem at a concrete failing probe. -/
theorem upload_authorise_always_403_witness :
    processUpload reqOK { envOK with isMember := ProbeResult.err } = bail 403 :=
  upload_authorise_always_403 reqOK { envOK with isMember := ProbeResult.err }
    (by decide) (by decide) (by decide) 2 (by decide)
    3 (by decide) (by decide) (by decide) (Or.inl rfl)

/-- Counterexample for C7 as frozen: the claim says a failing membership
    probe surfaces as 500, but the upload handler answers 403. -/
theorem upload_probe_error_gives_403_not_500 :
    (processUpload reqOK { envOK with isMember := ProbeResult.err }).status = 403 ∧
    ¬ (processUpload reqOK
        { envOK with isMember := ProbeResult.err }).status = 500 := by
  decide

/-- C8: a body of 5 MiB + 1 byte is rejected, but with status 401
    (handler.go line 89 writes http.StatusUnauthorized together with the
    message File too large or data is invalid), not the claimed 400; a body
    of exactly 5 MiB passes the size cap and the upload succeeds. -/
theorem upload_size_cap_401_and_exact_5mib_accepted :
    (processUpload { reqOK with bodySize := maxUploadSize + 1 } envOK).status = 401 ∧
    ¬ (processUpload { reqOK with bodySize := maxUploadSize + 1 } envOK).status = 400 ∧
    (processUpload { reqOK with bodySize := maxUploadSize } envOK).status = 201 := by
  decide

/-- C9: DetectAudioFormat and getContentType implement the claimed
    preference order and mapping, but the upload handler never calls them:
    for an audio part named voice.mp3 with Content-Type audio/mpeg the
    detector yields mp3, yet the pipeline hardcodes webm (handler.go line
    146) and writes a .webm key. -/
theorem upload_format_detection_not_wired :
    detectAudioFormat "audio/mpeg" "voice.mp3" = "mp3" ∧
    getContentType "mp3" = "audio/mpeg" ∧
    getContentType "webm" = "audio/webm" ∧
    getContentType "m4a" = "audio/mp4" ∧
    getContentType "mp4" = "audio/mp4" ∧
    getContentType "ogg" = "audio/ogg" ∧
    getContentType "opus" = "audio/ogg" ∧
    getContentType "wav" = "audio/wav" ∧
    reqOK.audio = some { dataLen := 4, filename := "voice.mp3",
                         contentType := "audio/mpeg" } ∧
    (processUpload reqOK envOK).blobPuts = ["messages/2025/02/01/7.webm"] := by
  decide

/-- C10 (amended): the effective page size is 50 when the limit parameter
    is absent or fails strconv.Atoi (including out-of-int64 numerals) or is
    not positive, the given value when it is in [1,100], and 100 for any
    larger parsed value; the effective offset is 0 when the parameter is
    absent, unparseable or negative, and the given value otherwise. -/
theorem pagination_effective_params (s : String) :
    (s = "" → effLimit s = 50 ∧ effOffset s = 0) ∧
    (goAtoi s = none → effLimit s = 50 ∧ effOffset s = 0) ∧
    (∀ v, goAtoi s = some v → v ≤ 0 → effLimit s = 50) ∧
    (∀ v, goAtoi s = some v → 1 ≤ v → v ≤ 100 → effLimit s = v) ∧
    (∀ v, goAtoi s = some v → 100 < v → effLimit s = 100) ∧
    (∀ v, goAtoi s = some v → v < 0 → effOffset s = 0) ∧
    (∀ v, goAtoi s = some v → 0 ≤ v → effOffset s = v) := by
  by_cases hse : s = ""
  · subst hse
    refine ⟨fun _ => ⟨rfl, rfl⟩, fun _ => ⟨rfl, rfl⟩, ?_, ?_, ?_, ?_, ?_⟩ <;>
      (intro v hv
       rw [show goAtoi "" = none from rfl] at hv
       cases hv)
  · refine ⟨fun h => absurd h hse, ?_, ?_, ?_, ?_, ?_, ?_⟩
    · intro hnone
      constructor <;> simp [effLimit, effOffset, hse, hnone]
    · intro v hv hle
      simp only [effLimit, hse, hv, if_false]
      repeat' split <;> omega
    · intro v hv h1 h100
      simp only [effLimit, hse, hv, if_false]
      repeat' split <;> omega
    · intro v hv h100
      simp only [effLimit, hse, hv, if_false]
      repeat' split <;> omega
    · intro v hv hneg
      simp only [effOffset, hse, hv, if_false]
      repeat' split <;> omega
    · intro v hv hnn
      simp only [effOffset, hse, hv, if_false]
      repeat' split <;> omega

/-- Witness for C10's amended theorem at concrete parameter strings. -/
theorem pagination_effective_params_witness :
    effLimit "70" = 70 ∧ effLimit "250" = 100 ∧ effOffset "30" = 30 ∧
    effOffset "-4" = 0 := by
  refine ⟨(pagination_effective_params "70").2.2.2.1 70
      (by decide) (by decide) (by decide),
    (pagination_effective_params "250").2.2.2.2.1 250 (by decide) (by decide),
    (pagination_effective_params "30").2.2.2.2.2.2 30 (by decide) (by decide),
    (pagination_effective_params "-4").2.2.2.2.2.1 (-4) (by decide) (by decide)⟩

/-- Counterexample for C10 as frozen: limit=9223372036854775808 is a
    numeric value greater than 100, so the claim requires the effective
    limit 100, but strconv.Atoi fails on it (out of int64 range) and the
    handler falls back to the default 50. -/
theorem pagination_limit_overflow_counterexample :
    specDecimalValue "9223372036854775808" = some 9223372036854775808 ∧
    100 < 9223372036854775808 ∧
    effLimit "9223372036854775808" = 50 ∧
    ¬ effLimit "9223372036854775808" = 100 := by
  decide

end LabaZis
